import Mathlib

/-!
Verification of the WaterBase crawler specification against the code in
`src/WaterBase/src/WebCrawler.py` and `src/WaterBase/src/DatabaseManager.py`.

The Python code is shallowly embedded: URLs are `String`s, the mutable
crawler/database objects become explicit state records, the browser, the
HTTP layer and the random sampler become oracle parameters, and each
method becomes a pure Lean function that returns the updated state.
String operations are carried out on the underlying `List Char` so that
every definition evaluates by kernel reduction.
-/

/-! ## URL parsing helpers

Model of the parts of `urllib.parse.urlparse` that the crawler uses:
for an absolute `scheme://netloc/path?query#fragment` URL the fragment is
split off first, then the query, then the `scheme`, `netloc` and `path`
components are separated.  Relative references (no `://`) have the whole
pre-query remainder as their path, which matches `urlparse` on the
path-only inputs the code feeds it. -/

/-- Characters of `l` strictly before the first occurrence of `c`
(all of `l` when `c` does not occur). -/
def upToChar (c : Char) : List Char → List Char
  | [] => []
  | x :: xs => if x == c then [] else x :: upToChar c xs

/-- Suffix of `l` starting at the first occurrence of `c`
(empty when `c` does not occur). -/
def fromChar (c : Char) : List Char → List Char
  | [] => []
  | x :: xs => if x == c then x :: xs else fromChar c xs

/-- Characters after the first occurrence of the scheme separator
`://`, or `none` when the separator does not occur. -/
def afterSchemeMark : List Char → Option (List Char)
  | ':' :: '/' :: '/' :: rest => some rest
  | _ :: xs => afterSchemeMark xs
  | [] => none

/-- Model of `urlparse(u).path`. -/
def urlparse_path (u : String) : String :=
  let core := upToChar '?' (upToChar '#' u.data)
  match afterSchemeMark core with
  | some rest => String.mk (fromChar '/' rest)
  | none => String.mk core

/-- Model of `urlparse(u).netloc`. -/
def urlparse_netloc (u : String) : String :=
  let core := upToChar '?' (upToChar '#' u.data)
  match afterSchemeMark core with
  | some rest => String.mk (upToChar '/' rest)
  | none => ""

/-- Model of `urlparse(u).scheme` for absolute URLs. -/
def urlparse_scheme (u : String) : String :=
  let core := upToChar '?' (upToChar '#' u.data)
  match afterSchemeMark core with
  | some _ => String.mk (upToChar ':' core)
  | none => ""

/-- Model of Python `s.startswith(pat)`. -/
def startsWithStr (s pat : String) : Bool :=
  pat.data.isPrefixOf s.data

/-- Model of Python `s.endswith(pat)`. -/
def endsWithStr (s pat : String) : Bool :=
  pat.data.isSuffixOf s.data

/-- Model of Python `pat in s` (substring containment) for a non-empty
pattern, by scanning every suffix of `s`. -/
def substrAux (pat : List Char) : List Char → Bool
  | [] => pat.isEmpty
  | x :: xs => pat.isPrefixOf (x :: xs) || substrAux pat xs

/-- Model of Python `pat in s`. -/
def containsSubstr (s pat : String) : Bool :=
  substrAux pat.data s.data

/-- Model of Python `s.lower()` (the code only lower-cases ASCII
paths and content types). -/
def lowerStr (s : String) : String :=
  String.mk (s.data.map Char.toLower)

/-- Same-origin comparison used by the specification ("scheme and host
equal those of the configured base URL").  This definition renders the
claim's words; the code itself uses a string-prefix test instead. -/
def sameOrigin (u v : String) : Bool :=
  urlparse_scheme u == urlparse_scheme v && urlparse_netloc u == urlparse_netloc v

/-- Model of `parsed_url.path.lstrip("/").split("/")[0]` from
`WebCrawler.crawl` (the `main_endpoint` field). -/
def main_endpoint_of (u : String) : String :=
  String.mk (upToChar '/' ((urlparse_path u).data.dropWhile (fun c => c == '/')))

/-! ## Robots policy

Model of `CustomRobotFileParser` from `WebCrawler.py` together with the
relevant state of its base class `urllib.robotparser.RobotFileParser`.
The stdlib parser's `can_fetch` first consults `disallow_all` /
`allow_all`, then returns `False` whenever `last_checked` is still `0`
(its docstring: until the robots.txt file has been read, no url is
allowable); only after a `parse` call (which sets `last_checked` via
`modified()`) does it evaluate the parsed entries.  The entry matching
itself is abstracted as `ruleEval`, which is irrelevant to the claims
because the path under scrutiny never parses a robots.txt. -/

structure RobotsState where
  disallow_all : Bool
  allow_all : Bool
  last_checked : Nat
  ruleEval : String → String → Bool
  additional_disallowed_paths : List String

/-- Model of `urllib.robotparser.RobotFileParser.can_fetch`. -/
def RobotFileParser_can_fetch (s : RobotsState) (useragent url : String) : Bool :=
  if s.disallow_all then false
  else if s.allow_all then true
  else if s.last_checked == 0 then false
  else s.ruleEval useragent url

/-- Model of `CustomRobotFileParser.can_fetch`: every supplemental
disallowed path is checked as a prefix of `urlparse(url).path` first,
then the base-class rules apply. -/
def CustomRobotFileParser_can_fetch (s : RobotsState) (useragent url : String) : Bool :=
  if s.additional_disallowed_paths.any (fun p => startsWithStr (urlparse_path url) p) then false
  else RobotFileParser_can_fetch s useragent url

/-- Model of `CustomRobotFileParser.add_disallowed_path`. -/
def add_disallowed_path (s : RobotsState) (path : String) : RobotsState :=
  { s with additional_disallowed_paths := s.additional_disallowed_paths ++ [path] }

/-- State of a freshly constructed `CustomRobotFileParser`:
`RobotFileParser.__init__` sets `disallow_all = allow_all = False` and
`last_checked = 0`, and the subclass starts with no supplemental paths. -/
def initRobotFileParser (ruleEval : String → String → Bool) : RobotsState :=
  { disallow_all := false
    allow_all := false
    last_checked := 0
    ruleEval := ruleEval
    additional_disallowed_paths := [] }

/-- Model of `WebCrawler.load_robots_txt`: on a 200 response the body is
parsed (`parseFn` stands for `RobotFileParser.parse`, which always sets
`last_checked` to the current nonzero time); on any other status the
parser state is left untouched apart from a warning log.  Afterwards the
supplemental path `"/mediebank/"` is always added. -/
def load_robots_txt (status : Nat) (parseFn : RobotsState → RobotsState) (s : RobotsState) :
    RobotsState :=
  add_disallowed_path (if status == 200 then parseFn s else s) "/mediebank/"

/-! ## Type classifier -/

def image_extensions : List String := [".jpg", ".jpeg", ".png", ".gif", ".bmp"]

def document_extensions : List String := [".pdf", ".doc", ".docx", ".xlsx"]

def video_extensions : List String := [".mp4", ".avi", ".mov", ".mkv"]

def audio_extensions : List String := [".mp3", ".wav", ".flac"]

/-- Content-type inspection of the HEAD-request branch of
`WebCrawler._get_url_type` (substring checks on the lower-cased
`Content-Type` header, falling through to `"unknown"`). -/
def content_type_tag (ct : String) : String :=
  if containsSubstr ct "image" then "image"
  else if containsSubstr ct "pdf" then "document"
  else if containsSubstr ct "video" then "video"
  else if containsSubstr ct "audio" then "audio"
  else if containsSubstr ct "text/html" then "webpage"
  else "unknown"

/-- Model of `WebCrawler._get_url_type`.  `headResp url` is the
lower-cased `Content-Type` header of a HEAD request (`none` models a
request error, which the code turns into `"unknown"`).  The extension
table is consulted on the lower-cased `urlparse(url).path`; the HEAD
probe only runs when `fallback_to_head` is true. -/
def get_url_type (headResp : String → Option String) (url : String)
    (fallback_to_head : Bool) : String :=
  let path := lowerStr (urlparse_path url)
  if image_extensions.any (fun e => endsWithStr path e) then "image"
  else if document_extensions.any (fun e => endsWithStr path e) then "document"
  else if video_extensions.any (fun e => endsWithStr path e) then "video"
  else if audio_extensions.any (fun e => endsWithStr path e) then "audio"
  else if fallback_to_head then
    match headResp url with
    | some ct => content_type_tag ct
    | none => "unknown"
  else "unknown"

/-! ## Page fetcher

`WebCrawler.fetch_links` drives a browser page.  The browser is an
oracle: `oracle url = some (hrefs, meta)` gives the anchor hrefs and the
`extract_metadata` result of a successful page load, while `none` models
any exception in the method body (navigation error, timeout, script
error), which the `except` clause turns into an empty link set and a
metadata dictionary without a `type` key. -/

/-- Result of `extract_metadata` on a successfully loaded page; the
embedded JavaScript always yields all four fields, defaulting `type`
to `"webpage"`. -/
structure PageMeta where
  title : String
  description : String
  pageID : String
  type : String
deriving DecidableEq, Repr

/-- Metadata dictionary as returned by `fetch_links`; the failure path
returns a dictionary without a `type` key, so `type` is optional here
and the scheduler reads it with `.get("type", "webpage")`. -/
structure FetchedMeta where
  title : String
  description : String
  pageID : String
  type : Option String
deriving DecidableEq, Repr

/-- Model of `WebCrawler.fetch_links`.  On success the hrefs containing
`"#"` are dropped, the rest are resolved against the page URL and
normalized (`joinNorm url` stands for `url_normalize ∘ urljoin(url, ·)`)
and collected into a set (`dedup`); on any exception the method returns
an empty link set and empty metadata. -/
def fetch_links (joinNorm : String → String → String)
    (oracle : String → Option (List String × PageMeta)) (url : String) :
    List String × FetchedMeta :=
  match oracle url with
  | some (links, md) =>
      (((links.filter (fun l => !(l.data.contains '#'))).map (fun l => joinNorm url l)).dedup,
       ⟨md.title, md.description, md.pageID, some md.type⟩)
  | none => ([], ⟨"", "", "", none⟩)

/-! ## Crawl scheduler

`WebCrawler.crawl` is a sequential loop over a FIFO `asyncio.Queue`.
The loop state is the queue, the visited set, the sequence of records
handed to `DatabaseManager.add_crawled_link`, and (as an observation
history for the theorems) the list of dequeued entries for which a fetch
was dispatched.  One loop iteration becomes `crawlStep`; `crawlRun n`
runs `n` iterations from the seeded initial state.

The environment collects the crawler configuration and the external
functions: `normalize` stands for the composition
`url_normalize(remove_query_params(·, ["tags"]))` of lines 196–197,
`joinNorm` for the per-page link normalization inside `fetch_links`,
`oracle` for the browser, `headResp` for the HEAD probe and `robots`
for the parser loaded by `load_robots_txt` before the crawl starts.
Page creation, page close and the database append are modelled as
succeeding (their exceptions are caught by the loop's `except` and do
not touch visited or the queue). -/

structure CrawlEnv where
  base_url : String
  max_depth : Nat
  normalize : String → String
  joinNorm : String → String → String
  oracle : String → Option (List String × PageMeta)
  headResp : String → Option String
  robots : RobotsState

/-- Dictionary handed to `DatabaseManager.add_crawled_link`
(a `CrawledLink`-compatible record; the crawler never sets
`site_content`). -/
structure LinkData where
  url : String
  allowed : Bool
  type : String
  inferred_type : String
  main_endpoint : String
  title : String
  description : String
  pageID : String
deriving DecidableEq, Repr

structure CrawlState where
  queue : List (String × Nat)
  visited_urls : List String
  batch : List LinkData
  fetched : List (String × Nat)
deriving DecidableEq, Repr

/-- The `link_data` dictionary built in `WebCrawler.crawl` for a
dequeued URL: the normalized URL is the primary key, `allowed` comes
from the robots parser on the normalized URL, `type` from the page
metadata with default `"webpage"`, `inferred_type` from
`_get_url_type(current_url)` (HEAD fallback left at its `False`
default), and `main_endpoint` is the first path segment. -/
def mkLinkData (env : CrawlEnv) (current_url : String) : LinkData :=
  let normalized_url := env.normalize current_url
  let md := (fetch_links env.joinNorm env.oracle current_url).2
  { url := normalized_url
    allowed := CustomRobotFileParser_can_fetch env.robots "*" normalized_url
    type := md.type.getD "webpage"
    inferred_type := get_url_type env.headResp current_url false
    main_endpoint := main_endpoint_of current_url
    title := md.title
    description := md.description
    pageID := md.pageID }

/-- The fetch-dispatching branch of one `crawl` loop iteration: mark the
normalized URL visited, fetch the page, append the record, and enqueue
each discovered link that starts with the base URL and is not in the
visited set (which already contains the current normalized URL) at
depth + 1. -/
def crawlFetch (env : CrawlEnv) (s : CrawlState) (u : String) (d : Nat)
    (rest : List (String × Nat)) : CrawlState :=
  let visited2 := env.normalize u :: s.visited_urls
  let links := (fetch_links env.joinNorm env.oracle u).1
  { queue := rest ++
      (links.filter (fun l => startsWithStr l env.base_url && !(visited2.contains l))).map
        (fun l => (l, d + 1))
    visited_urls := visited2
    batch := s.batch ++ [mkLinkData env u]
    fetched := s.fetched ++ [(u, d)] }

/-- One iteration of the `while not self.queue.empty()` loop of
`WebCrawler.crawl`: dequeue, normalize, and either discard (already
visited or deeper than `max_depth`) or dispatch the fetch.  An empty
queue leaves the state unchanged (the loop has terminated). -/
def crawlStep (env : CrawlEnv) (s : CrawlState) : CrawlState :=
  match s.queue with
  | [] => s
  | (current_url, current_depth) :: rest =>
      if env.normalize current_url ∈ s.visited_urls ∨ env.max_depth < current_depth then
        { s with queue := rest }
      else crawlFetch env s current_url current_depth rest

/-- `n` iterations of the crawl loop from the state seeded by
`crawl(url, context, depth=0)`: the seed is enqueued at depth 0 and all
other state starts empty.  Fuel-indexed because termination depends on
the crawled site. -/
def crawlRun (env : CrawlEnv) (u0 : String) : Nat → CrawlState
  | 0 => { queue := [(u0, 0)], visited_urls := [], batch := [], fetched := [] }
  | n + 1 => crawlStep env (crawlRun env u0 n)

/-! ## Database manager

Model of `DatabaseManager` from `DatabaseManager.py`.  The PostgreSQL
table `crawled_links` is a list of rows keyed by `url`; the manager
state is the pending `_batch`, the store behind the connection, and an
open/closed flag.

`flush_batch` builds a single
`INSERT ... VALUES (batch) ON CONFLICT (url) DO UPDATE` statement.  Its
execution semantics (PostgreSQL): each batch row either inserts a new
row (absent key; Python-side column defaults fill `created_at` and
`updated_at`, `site_content` is absent from the dictionaries and stays
NULL) or updates the existing row's mutable fields, refreshing
`updated_at` and leaving `url` and `created_at` alone.  When two rows of
one statement share a `url`, PostgreSQL rejects the statement
("ON CONFLICT DO UPDATE command cannot affect row a second time"), and
the whole statement is atomic, so a failed statement leaves the store
unchanged.  External execution failures (lost connection etc.) are
injected through the `execOk` flag.  On any execution error the code
logs, rolls back and re-raises, and the `finally` block clears `_batch`
in every case. -/

/-- Timestamps are abstract ticks (`datetime.now` values). -/
structure StoreRow where
  url : String
  allowed : Bool
  type : String
  inferred_type : String
  main_endpoint : String
  title : String
  description : String
  pageID : String
  site_content : Option String
  created_at : Nat
  updated_at : Nat
deriving DecidableEq, Repr

structure DBState where
  batch : List LinkData
  store : List StoreRow
  connectionOpen : Bool
deriving DecidableEq, Repr

/-- Row inserted for a batch dictionary on a non-conflicting `url`:
column defaults set both timestamps to now, `site_content` is NULL. -/
def insertRow (now : Nat) (d : LinkData) : StoreRow :=
  { url := d.url
    allowed := d.allowed
    type := d.type
    inferred_type := d.inferred_type
    main_endpoint := d.main_endpoint
    title := d.title
    description := d.description
    pageID := d.pageID
    site_content := none
    created_at := now
    updated_at := now }

/-- `DO UPDATE` action of the upsert on a conflicting row: all mutable
fields are overwritten from the excluded row (`site_content` was absent
from the insert, so its excluded value is NULL), `updated_at` is
refreshed, `url` and `created_at` are untouched. -/
def updateRow (now : Nat) (r : StoreRow) (d : LinkData) : StoreRow :=
  { r with
    allowed := d.allowed
    type := d.type
    inferred_type := d.inferred_type
    main_endpoint := d.main_endpoint
    title := d.title
    description := d.description
    pageID := d.pageID
    site_content := none
    updated_at := now }

/-- Effect of one batch row of the upsert statement on the store. -/
def upsertOne (now : Nat) (store : List StoreRow) (d : LinkData) : List StoreRow :=
  if store.any (fun r => r.url == d.url) then
    store.map (fun r => if r.url == d.url then updateRow now r d else r)
  else store ++ [insertRow now d]

/-- Pairwise distinctness of the batch rows' primary keys. -/
def urlsNodup : List LinkData → Bool
  | [] => true
  | d :: t => !((t.map (fun x => x.url)).contains d.url) && urlsNodup t

/-- Execution of the whole upsert statement against the store: row by
row when all primary keys are distinct, a PostgreSQL cardinality error
(`none`) when the batch holds the same `url` twice. -/
def executeUpsert (now : Nat) (batch : List LinkData) (store : List StoreRow) :
    Option (List StoreRow) :=
  if urlsNodup batch then some (batch.foldl (upsertOne now) store) else none

/-- Model of `DatabaseManager.flush_batch`.  Empty batch: early return.
Otherwise the upsert executes and commits; on an execution error the
transaction is rolled back (store unchanged) and the exception is
re-raised — the returned flag is `false`.  The `finally` block clears
`_batch` on both paths. -/
def flush_batch (execOk : Bool) (now : Nat) (s : DBState) : DBState × Bool :=
  if s.batch.isEmpty then (s, true)
  else if execOk then
    match executeUpsert now s.batch s.store with
    | some store2 => ({ s with batch := [], store := store2 }, true)
    | none => ({ s with batch := [] }, false)
  else ({ s with batch := [] }, false)

/-- Model of `DatabaseManager.close_database_connection`.  The method is
synchronous; `if self._batch: self.flush_batch()` calls the async
`flush_batch` without awaiting it, so the call only creates a coroutine
object that is never run (Python warns: coroutine was never awaited) —
neither the store nor `_batch` changes.  The connection and session are
then rolled back and closed. -/
def close_database_connection (s : DBState) : DBState :=
  { s with connectionOpen := false }

/-- Two successive single-record flushes (the successive-batch scenario
of the idempotence claim), starting from an empty store. -/
def flushTwice (d1 d2 : LinkData) (t1 t2 : Nat) : DBState :=
  let s1 := (flush_batch true t1 { batch := [d1], store := [], connectionOpen := true }).1
  (flush_batch true t2 { s1 with batch := [d2] }).1

/-! ## Grouped sampling

Model of `DatabaseManager.sample_records_by_group`.  The table contents
and the ORM are abstracted: `records` is the table, `filters` the
conjunction of the optional query filters, `group_attr` the grouping
attribute.  `random.sample(population, k)` is an oracle `sampler`; its
documented contract (a list of `k` elements chosen from the population)
is a hypothesis of the theorem.  The result maps each group value to the
sample of its records; group values not present map to the empty
sample. -/
def sample_records_by_group {R G : Type} [BEq G]
    (sampler : List R → Nat → List R) (records : List R) (group_attr : R → G)
    (sample_size : Nat) (filters : R → Bool) : G → List R :=
  fun g =>
    let all_records := records.filter filters
    let grouped := all_records.filter (fun r => group_attr r == g)
    sampler grouped (min sample_size grouped.length)

/-! ## Structural lemmas about the crawl loop -/

lemma crawlStep_cons_discard (env : CrawlEnv) (s : CrawlState) (u : String) (d : Nat)
    (rest : List (String × Nat)) (hq : s.queue = (u, d) :: rest)
    (hc : env.normalize u ∈ s.visited_urls ∨ env.max_depth < d) :
    crawlStep env s = { s with queue := rest } := by
  obtain ⟨q, v, b, f⟩ := s
  replace hq : q = (u, d) :: rest := hq
  subst hq
  simp only [crawlStep]
  rw [if_pos hc]

lemma crawlStep_cons_fetch (env : CrawlEnv) (s : CrawlState) (u : String) (d : Nat)
    (rest : List (String × Nat)) (hq : s.queue = (u, d) :: rest)
    (hc : ¬(env.normalize u ∈ s.visited_urls ∨ env.max_depth < d)) :
    crawlStep env s = crawlFetch env s u d rest := by
  obtain ⟨q, v, b, f⟩ := s
  replace hq : q = (u, d) :: rest := hq
  subst hq
  simp only [crawlStep]
  rw [if_neg hc]

lemma crawlStep_nil (env : CrawlEnv) (s : CrawlState) (hq : s.queue = []) :
    crawlStep env s = s := by
  obtain ⟨q, v, b, f⟩ := s
  replace hq : q = [] := hq
  subst hq
  rfl

/-- Joint invariant of the crawl loop: the dispatched fetches have
pairwise distinct normalized URLs, every dispatched fetch left its
normalized URL in the visited set, and a dispatched fetch never exceeds
the depth bound. -/
def CrawlInv (env : CrawlEnv) (s : CrawlState) : Prop :=
  ((s.fetched.map (fun e => env.normalize e.1)).Nodup ∧
      ∀ e ∈ s.fetched, env.normalize e.1 ∈ s.visited_urls) ∧
    ∀ e ∈ s.fetched, e.2 ≤ env.max_depth

lemma crawlInv_step (env : CrawlEnv) (s : CrawlState) (h : CrawlInv env s) :
    CrawlInv env (crawlStep env s) := by
  obtain ⟨⟨h1, h2⟩, h3⟩ := h
  rcases hq : s.queue with _ | ⟨⟨u, d⟩, rest⟩
  · rw [crawlStep_nil env s hq]
    exact ⟨⟨h1, h2⟩, h3⟩
  · by_cases hc : env.normalize u ∈ s.visited_urls ∨ env.max_depth < d
    · rw [crawlStep_cons_discard env s u d rest hq hc]
      exact ⟨⟨h1, h2⟩, h3⟩
    · rw [crawlStep_cons_fetch env s u d rest hq hc]
      push_neg at hc
      obtain ⟨hv, hd⟩ := hc
      refine ⟨⟨?_, ?_⟩, ?_⟩
      · simp only [crawlFetch, List.map_append, List.map_cons, List.map_nil]
        rw [List.nodup_append]
        refine ⟨h1, List.nodup_singleton _, ?_⟩
        intro x hx hx1
        simp only [List.mem_singleton] at hx1
        subst hx1
        obtain ⟨e, he, hee⟩ := List.mem_map.mp hx
        exact hv (hee ▸ h2 e he)
      · intro e he
        simp only [crawlFetch, List.mem_append, List.mem_singleton] at he
        rcases he with he | he
        · simp only [crawlFetch]
          exact List.mem_cons_of_mem _ (h2 e he)
        · subst he
          simp only [crawlFetch]
          exact List.mem_cons_self _ _
      · intro e he
        simp only [crawlFetch, List.mem_append, List.mem_singleton] at he
        rcases he with he | he
        · exact h3 e he
        · subst he
          exact hd

lemma crawlInv_run (env : CrawlEnv) (u0 : String) (n : Nat) :
    CrawlInv env (crawlRun env u0 n) := by
  induction n with
  | zero =>
      refine ⟨⟨?_, ?_⟩, ?_⟩ <;> simp [crawlRun]
  | succ n ih => exact crawlInv_step env (crawlRun env u0 n) ih

/-- C1: for every pair of frontier entries whose URLs have the same
normalized form, the scheduler fetches the underlying resource at most
once per crawl: the list of dispatched fetches has pairwise distinct
normalized URLs (the normalized URL is inserted into the visited set
the moment its fetch is dispatched), and a dequeue of an entry whose
normalized URL is already visited is discarded without a fetch — only
the queue shrinks. -/
theorem c1_normalized_dedup (env : CrawlEnv) (u0 : String) (n : Nat) :
    ((crawlRun env u0 n).fetched.map (fun e => env.normalize e.1)).Nodup ∧
      (∀ e ∈ (crawlRun env u0 n).fetched,
        env.normalize e.1 ∈ (crawlRun env u0 n).visited_urls) ∧
      ∀ (s : CrawlState) (u : String) (d : Nat) (rest : List (String × Nat)),
        s.queue = (u, d) :: rest → env.normalize u ∈ s.visited_urls →
        crawlStep env s = { s with queue := rest } := by
  refine ⟨(crawlInv_run env u0 n).1.1, (crawlInv_run env u0 n).1.2, ?_⟩
  intro s u d rest hq hv
  exact crawlStep_cons_discard env s u d rest hq (Or.inl hv)

/-! ## Concrete instances used by witnesses and counterexamples -/

/-- Parser state with `allow_all` set (robots.txt equivalent of no
restrictions), used to instantiate the environment concretely. -/
def allowAllRobots : RobotsState :=
  { disallow_all := false
    allow_all := true
    last_checked := 0
    ruleEval := fun _ _ => true
    additional_disallowed_paths := [] }

/-- Concrete crawl environment: the seed page links to `/a`, and `/a`
links to itself. -/
def envC1 : CrawlEnv :=
  { base_url := "https://example.com"
    max_depth := 4
    normalize := id
    joinNorm := fun _ l => l
    oracle := fun u =>
      if u == "https://example.com" then
        some (["https://example.com/a"], ⟨"t", "d", "p", "webpage"⟩)
      else if u == "https://example.com/a" then
        some (["https://example.com/a"], ⟨"t", "d", "p", "webpage"⟩)
      else none
    headResp := fun _ => none
    robots := allowAllRobots }

/-- State about to dequeue an entry whose normalized URL is already
visited. -/
def stC1 : CrawlState :=
  { queue := [("https://example.com/a", 1)]
    visited_urls := ["https://example.com/a"]
    batch := []
    fetched := [] }

/-- Witness for C1 at a concrete crawl: four loop iterations of the
self-linking site dispatch pairwise distinct normalized fetches, and a
dequeue of the already-visited `/a` is a pure discard. -/
theorem c1_normalized_dedup_witness :
    ((crawlRun envC1 "https://example.com" 4).fetched.map (fun e => envC1.normalize e.1)).Nodup ∧
      crawlStep envC1 stC1 = { stC1 with queue := [] } :=
  ⟨(c1_normalized_dedup envC1 "https://example.com" 4).1,
   (c1_normalized_dedup envC1 "https://example.com" 4).2.2 stC1 "https://example.com/a" 1 []
     rfl (by decide)⟩

/-- C5: a dequeued frontier entry is fetched exactly when its depth is
at most `max_depth` and its normalized URL is not yet visited; an entry
strictly deeper than `max_depth` is discarded as a no-op (only the queue
shrinks); and no dispatched fetch ever has depth above `max_depth`. -/
theorem c5_depth_gate (env : CrawlEnv) :
    (∀ (s : CrawlState) (u : String) (d : Nat) (rest : List (String × Nat)),
        s.queue = (u, d) :: rest →
        (((crawlStep env s).fetched = s.fetched ++ [(u, d)]) ↔
            (d ≤ env.max_depth ∧ env.normalize u ∉ s.visited_urls)) ∧
          (env.max_depth < d → crawlStep env s = { s with queue := rest })) ∧
      ∀ (u0 : String) (n : Nat), ∀ e ∈ (crawlRun env u0 n).fetched, e.2 ≤ env.max_depth := by
  constructor
  · intro s u d rest hq
    constructor
    · by_cases hc : env.normalize u ∈ s.visited_urls ∨ env.max_depth < d
      · rw [crawlStep_cons_discard env s u d rest hq hc]
        constructor
        · intro h
          exfalso
          have hlen := congrArg List.length h
          simp only [List.length_append, List.length_singleton] at hlen
          omega
        · rintro ⟨hd, hv⟩
          rcases hc with hc | hc
          · exact absurd hc hv
          · exact absurd hd (Nat.not_le.mpr hc)
      · rw [crawlStep_cons_fetch env s u d rest hq hc]
        push_neg at hc
        constructor
        · intro _
          exact ⟨hc.2, hc.1⟩
        · intro _
          rfl
    · intro hd
      exact crawlStep_cons_discard env s u d rest hq (Or.inr hd)
  · intro u0 n e he
    exact (crawlInv_run env u0 n).2 e he

/-- State about to dequeue an entry at depth 5 with `max_depth = 4`. -/
def stC5 : CrawlState :=
  { queue := [("https://example.com/b", 5)]
    visited_urls := []
    batch := []
    fetched := [] }

/-- Witness for C5: the depth-5 entry under `max_depth = 4` is not
fetched and its dequeue only shrinks the queue, and the seed fetch of a
concrete 3-step run is within the depth bound. -/
theorem c5_depth_gate_witness :
    (((crawlStep envC1 stC5).fetched = stC5.fetched ++ [("https://example.com/b", 5)]) ↔
        (5 ≤ envC1.max_depth ∧ envC1.normalize "https://example.com/b" ∉ stC5.visited_urls)) ∧
      crawlStep envC1 stC5 = { stC5 with queue := [] } ∧
      ("https://example.com", 0).2 ≤ envC1.max_depth :=
  ⟨((c5_depth_gate envC1).1 stC5 "https://example.com/b" 5 [] rfl).1,
   ((c5_depth_gate envC1).1 stC5 "https://example.com/b" 5 [] rfl).2 (by decide),
   (c5_depth_gate envC1).2 "https://example.com" 3 ("https://example.com", 0) (by decide)⟩

lemma contains_false_not_mem {l : List String} {a : String}
    (h : l.contains a = false) : a ∉ l :=
  fun hm => Bool.noConfusion ((List.elem_iff.mpr hm).symm.trans h)

/-- C2 (code bug): after `load_robots_txt` sees a non-200 robots.txt
response, `can_fetch` returns `False` for EVERY url — deny-all — not
the allow-all that the spec (and the code's own warning "Assuming no
restrictions") describe.  The non-200 branch never calls `parse`, so
the inherited `RobotFileParser` still has `last_checked = 0` and its
`can_fetch` answers `False` unconditionally. -/
theorem c2_robots_non200_denies_all (ruleEval : String → String → Bool)
    (parseFn : RobotsState → RobotsState) (status : Nat) (url : String)
    (h : status ≠ 200) :
    CustomRobotFileParser_can_fetch
      (load_robots_txt status parseFn (initRobotFileParser ruleEval)) "*" url = false := by
  have hst : (status == 200) = false := beq_eq_false_iff_ne.mpr h
  simp only [load_robots_txt, hst, Bool.false_eq_true, if_false, add_disallowed_path,
    initRobotFileParser, CustomRobotFileParser_can_fetch, RobotFileParser_can_fetch]
  split
  · rfl
  · rfl

/-- Witness for C2: the robots.txt fetch returns 404 and the crawler
then denies `https://example.com/about`, a URL outside the supplemental
disallow list. -/
theorem c2_robots_non200_denies_all_witness :
    CustomRobotFileParser_can_fetch
      (load_robots_txt 404 id (initRobotFileParser (fun _ _ => true))) "*"
      "https://example.com/about" = false :=
  c2_robots_non200_denies_all (fun _ _ => true) id 404 "https://example.com/about" (by decide)

/-- A record sitting in the pending batch at shutdown time. -/
def bufferedLink : LinkData :=
  { url := "https://example.com/x"
    allowed := true
    type := "webpage"
    inferred_type := "unknown"
    main_endpoint := "x"
    title := ""
    description := ""
    pageID := "" }

/-- C3 (code bug): `close_database_connection` with a non-empty pending
batch writes nothing to the store before closing the connection — the
buffered record is lost.  The guard `if self._batch:` shows the final
flush is intended, but the synchronous method calls the async
`flush_batch()` without awaiting it, so the coroutine body never runs. -/
theorem c3_close_loses_pending_batch :
    (close_database_connection
        { batch := [bufferedLink], store := [], connectionOpen := true }).store = [] ∧
      (close_database_connection
        { batch := [bufferedLink], store := [], connectionOpen := true }).batch =
          [bufferedLink] ∧
      (close_database_connection
        { batch := [bufferedLink], store := [], connectionOpen := true }).connectionOpen =
          false :=
  ⟨rfl, rfl, rfl⟩

/-- Environment whose browser oracle fails on every page
(navigation/timeout/evaluation error inside `fetch_links`). -/
def envC4 : CrawlEnv :=
  { base_url := "https://example.com"
    max_depth := 4
    normalize := id
    joinNorm := fun _ l => l
    oracle := fun _ => none
    headResp := fun _ => none
    robots := allowAllRobots }

/-- The freshly seeded crawl state. -/
def seedState : CrawlState :=
  { queue := [("https://example.com", 0)]
    visited_urls := []
    batch := []
    fetched := [] }

/-- Counterexample to C4 as stated: the fetch of the seed URL fails
(`oracle` returns `none`), yet after the loop iteration a CrawlRecord
for that URL HAS been handed to the database layer — `fetch_links`
swallows the exception and returns empty metadata, and `crawl` builds
and persists `link_data` regardless, so "persists no CrawlRecord for
it" is false. -/
theorem c4_counterexample :
    envC4.oracle "https://example.com" = none ∧
      (crawlRun envC4 "https://example.com" 1).batch =
        [{ url := "https://example.com"
           allowed := true
           type := "webpage"
           inferred_type := "unknown"
           main_endpoint := ""
           title := ""
           description := ""
           pageID := "" }] := by
  decide

/-- C4 (amended): when fetching a page for a URL fails (navigation,
timeout or evaluation error — the `except` branch of `fetch_links`),
the scheduler marks that URL's normalized form visited, persists a
CrawlRecord for it with default metadata (`type = "webpage"`, empty
title, description and pageID, extension-inferred type) and an empty
link set, and continues the traversal with exactly the remaining
frontier entries. -/
theorem c4_fetch_failure_record (env : CrawlEnv) (s : CrawlState) (u : String) (d : Nat)
    (rest : List (String × Nat)) (hq : s.queue = (u, d) :: rest)
    (ho : env.oracle u = none) (hv : env.normalize u ∉ s.visited_urls)
    (hd : d ≤ env.max_depth) :
    crawlStep env s =
      { queue := rest
        visited_urls := env.normalize u :: s.visited_urls
        batch := s.batch ++
          [{ url := env.normalize u
             allowed := CustomRobotFileParser_can_fetch env.robots "*" (env.normalize u)
             type := "webpage"
             inferred_type := get_url_type env.headResp u false
             main_endpoint := main_endpoint_of u
             title := ""
             description := ""
             pageID := "" }]
        fetched := s.fetched ++ [(u, d)] } := by
  have hc : ¬(env.normalize u ∈ s.visited_urls ∨ env.max_depth < d) := by
    rintro (h | h)
    · exact hv h
    · exact absurd hd (Nat.not_le.mpr h)
  rw [crawlStep_cons_fetch env s u d rest hq hc]
  simp [crawlFetch, mkLinkData, fetch_links, ho]

/-- Witness for C4 (amended) on the concrete failing environment. -/
theorem c4_fetch_failure_record_witness :
    crawlStep envC4 seedState =
      { queue := []
        visited_urls := ["https://example.com"]
        batch := [{ url := "https://example.com"
                    allowed := true
                    type := "webpage"
                    inferred_type := "unknown"
                    main_endpoint := ""
                    title := ""
                    description := ""
                    pageID := "" }]
        fetched := [("https://example.com", 0)] } := by
  have h := c4_fetch_failure_record envC4 seedState "https://example.com" 0 [] rfl rfl
    (by decide) (by decide)
  rw [h]
  decide

/-- Environment whose seed page links to a host that merely extends the
base URL as a string. -/
def envC6 : CrawlEnv :=
  { base_url := "https://example.com"
    max_depth := 4
    normalize := id
    joinNorm := fun _ l => l
    oracle := fun u =>
      if u == "https://example.com" then
        some (["https://example.com.evil.org/x"], ⟨"t", "d", "p", "webpage"⟩)
      else none
    headResp := fun _ => none
    robots := allowAllRobots }

/-- Counterexample to C6 as stated: a discovered link on a different
host, `https://example.com.evil.org/x`, passes the
`link.startswith(self.base_url)` test for base `https://example.com`
and IS enqueued, although its origin (scheme, host) differs from the
base URL's — so "links outside that origin are never enqueued" is
false. -/
theorem c6_counterexample :
    (crawlRun envC6 "https://example.com" 1).queue =
        [("https://example.com.evil.org/x", 1)] ∧
      sameOrigin "https://example.com.evil.org/x" envC6.base_url = false := by
  decide

/-- C6 (amended): every entry the scheduler enqueues while processing a
dequeued URL is either a previously queued entry or a discovered link
that starts with the base URL string (a prefix test, not an origin
check), sits at depth + 1, and was not in the visited set at enqueue
time. -/
theorem c6_enqueue_gate (env : CrawlEnv) (s : CrawlState) (u : String) (d : Nat)
    (rest : List (String × Nat)) (hq : s.queue = (u, d) :: rest) :
    ∀ e ∈ (crawlStep env s).queue,
      e ∈ rest ∨
        (startsWithStr e.1 env.base_url = true ∧ e.2 = d + 1 ∧
          e.1 ∉ env.normalize u :: s.visited_urls) := by
  by_cases hc : env.normalize u ∈ s.visited_urls ∨ env.max_depth < d
  · rw [crawlStep_cons_discard env s u d rest hq hc]
    intro e he
    exact Or.inl he
  · rw [crawlStep_cons_fetch env s u d rest hq hc]
    intro e he
    simp only [crawlFetch, List.mem_append] at he
    rcases he with he | he
    · exact Or.inl he
    · right
      obtain ⟨l, hl, rfl⟩ := List.mem_map.mp he
      obtain ⟨-, hcond⟩ := List.mem_filter.mp hl
      rw [Bool.and_eq_true] at hcond
      refine ⟨hcond.1, rfl, ?_⟩
      have hcf : (env.normalize u :: s.visited_urls).contains l = false := by
        simpa using hcond.2
      exact contains_false_not_mem hcf

/-- Witness for C6 (amended): the single entry enqueued from the seed
of the concrete environment satisfies the gate. -/
theorem c6_enqueue_gate_witness :
    ("https://example.com.evil.org/x", 1) ∈ ([] : List (String × Nat)) ∨
      (startsWithStr "https://example.com.evil.org/x" envC6.base_url = true ∧
        1 = 0 + 1 ∧
        "https://example.com.evil.org/x" ∉
          envC6.normalize "https://example.com" :: ([] : List String)) :=
  c6_enqueue_gate envC6 seedState "https://example.com" 0 [] rfl
    ("https://example.com.evil.org/x", 1) (by decide)

/-- C7: after any flush attempt the pending batch is empty — the
`finally` block clears it on the success path and on every error path —
and when the batch was non-empty the returned success flag is exactly
"the execution succeeded and the statement was well-formed", so a
persistence error is propagated to the caller (never retried). -/
theorem c7_flush_clears_batch (execOk : Bool) (now : Nat) (s : DBState) :
    (flush_batch execOk now s).1.batch = [] ∧
      (s.batch ≠ [] →
        (flush_batch execOk now s).2 = (execOk && urlsNodup s.batch)) := by
  obtain ⟨b, st, c⟩ := s
  cases b with
  | nil => exact ⟨rfl, fun h => absurd rfl h⟩
  | cons d t =>
    cases execOk with
    | false => exact ⟨rfl, fun _ => rfl⟩
    | true =>
      cases hnd : urlsNodup (d :: t) with
      | false =>
          constructor
          · simp [flush_batch, executeUpsert, hnd]
          · intro _
            simp [flush_batch, executeUpsert, hnd]
      | true =>
          constructor
          · simp [flush_batch, executeUpsert, hnd]
          · intro _
            simp [flush_batch, executeUpsert, hnd]

/-- Database state holding one buffered record, with the backend about
to fail. -/
def c7State : DBState := { batch := [bufferedLink], store := [], connectionOpen := true }

/-- Witness for C7: a failing flush of a one-record batch clears the
batch and reports the error. -/
theorem c7_flush_clears_batch_witness :
    (flush_batch false 0 c7State).1.batch = [] ∧ (flush_batch false 0 c7State).2 = false :=
  ⟨(c7_flush_clears_batch false 0 c7State).1,
   by simpa using (c7_flush_clears_batch false 0 c7State).2 (by decide)⟩

/-- First of two records sharing a primary key. -/
def dupA : LinkData :=
  { url := "https://example.com/p"
    allowed := true
    type := "webpage"
    inferred_type := "unknown"
    main_endpoint := "p"
    title := "first"
    description := ""
    pageID := "" }

/-- Second record with the same `url` but different field values. -/
def dupB : LinkData :=
  { dupA with title := "second" }

/-- Counterexample to C8 as stated: flushing one batch that contains
the same URL twice does NOT leave one row with the latest values —
PostgreSQL rejects an `ON CONFLICT DO UPDATE` whose input affects the
same row twice, so the flush propagates an error and writes no row at
all. -/
theorem c8_counterexample :
    dupA.url = dupB.url ∧
      (flush_batch true 7 { batch := [dupA, dupB], store := [], connectionOpen := true }).2 =
        false ∧
      (flush_batch true 7
          { batch := [dupA, dupB], store := [], connectionOpen := true }).1.store = [] := by
  decide

/-- C8 (amended): flushing records with the same URL in successive
batches is idempotent with respect to the store: starting from an empty
store, flushing `[d1]` and then `[d2]` with `d1.url = d2.url` leaves
exactly one row for that URL, holding `d2`'s field values with
`updated_at` refreshed to the second flush time and `created_at` kept
from the insert — never a duplicate row.  (Within a single batch a
repeated URL instead fails the statement, see the counterexample.) -/
theorem c8_upsert_idempotent (d1 d2 : LinkData) (t1 t2 : Nat) (h : d1.url = d2.url) :
    (flushTwice d1 d2 t1 t2).store =
      [{ url := d2.url
         allowed := d2.allowed
         type := d2.type
         inferred_type := d2.inferred_type
         main_endpoint := d2.main_endpoint
         title := d2.title
         description := d2.description
         pageID := d2.pageID
         site_content := none
         created_at := t1
         updated_at := t2 }] ∧
      (flushTwice d1 d2 t1 t2).batch = [] := by
  constructor
  · simp [flushTwice, flush_batch, executeUpsert, urlsNodup, upsertOne, insertRow,
      updateRow, h]
  · simp [flushTwice, flush_batch, executeUpsert, urlsNodup, upsertOne, insertRow,
      updateRow, h]

/-- Witness for C8 (amended) at two concrete records with a shared
URL. -/
theorem c8_upsert_idempotent_witness :
    (flushTwice dupA dupB 5 9).store =
      [{ url := dupB.url
         allowed := dupB.allowed
         type := dupB.type
         inferred_type := dupB.inferred_type
         main_endpoint := dupB.main_endpoint
         title := dupB.title
         description := dupB.description
         pageID := dupB.pageID
         site_content := none
         created_at := 5
         updated_at := 9 }] ∧
      (flushTwice dupA dupB 5 9).batch = [] :=
  c8_upsert_idempotent dupA dupB 5 9 rfl

lemma get_url_type_false_cases (hR : String → Option String) (u : String) :
    get_url_type hR u false = "image" ∨ get_url_type hR u false = "document" ∨
      get_url_type hR u false = "video" ∨ get_url_type hR u false = "audio" ∨
      get_url_type hR u false = "unknown" := by
  cases h1 : image_extensions.any (fun e => endsWithStr (lowerStr (urlparse_path u)) e) with
  | true =>
      left
      simp [get_url_type, h1]
  | false =>
  cases h2 : document_extensions.any (fun e => endsWithStr (lowerStr (urlparse_path u)) e) with
  | true =>
      right
      left
      simp [get_url_type, h1, h2]
  | false =>
  cases h3 : video_extensions.any (fun e => endsWithStr (lowerStr (urlparse_path u)) e) with
  | true =>
      right
      right
      left
      simp [get_url_type, h1, h2, h3]
  | false =>
  cases h4 : audio_extensions.any (fun e => endsWithStr (lowerStr (urlparse_path u)) e) with
  | true =>
      right
      right
      right
      left
      simp [get_url_type, h1, h2, h3, h4]
  | false =>
      right
      right
      right
      right
      simp [get_url_type, h1, h2, h3, h4]

lemma crawlStep_batch_shape (env : CrawlEnv) (s : CrawlState) :
    (crawlStep env s).batch = s.batch ∨
      ∃ u, (crawlStep env s).batch = s.batch ++ [mkLinkData env u] := by
  rcases hq : s.queue with _ | ⟨⟨u, d⟩, rest⟩
  · rw [crawlStep_nil env s hq]
    exact Or.inl rfl
  · by_cases hc : env.normalize u ∈ s.visited_urls ∨ env.max_depth < d
    · rw [crawlStep_cons_discard env s u d rest hq hc]
      exact Or.inl rfl
    · rw [crawlStep_cons_fetch env s u d rest hq hc]
      exact Or.inr ⟨u, rfl⟩

lemma crawlRun_batch_inferred (env : CrawlEnv) (u0 : String) (n : Nat) :
    ∀ r ∈ (crawlRun env u0 n).batch, ∃ u, r = mkLinkData env u := by
  induction n with
  | zero => intro r hr; simp [crawlRun] at hr
  | succ n ih =>
      intro r hr
      rcases crawlStep_batch_shape env (crawlRun env u0 n) with hsh | ⟨u, hsh⟩
      · rw [crawlRun, hsh] at hr
        exact ih r hr
      · rw [crawlRun, hsh, List.mem_append, List.mem_singleton] at hr
        rcases hr with hr | hr
        · exact ih r hr
        · exact ⟨u, hr⟩

/-- C9: the crawl invokes `_get_url_type` with the HEAD fallback left
at its `False` default, so the inferred type is independent of the HEAD
responder (it is determined solely by the extension-suffix table), it
is always one of `image`, `document`, `video`, `audio`, `unknown`, and
the `inferred_type` field of every record the crawl persists is in that
set and is never `"webpage"`. -/
theorem c9_inferred_type_extension_only :
    (∀ (h1 h2 : String → Option String) (u : String),
        get_url_type h1 u false = get_url_type h2 u false) ∧
      (∀ (hR : String → Option String) (u : String),
        get_url_type hR u false ∈
            (["image", "document", "video", "audio", "unknown"] : List String) ∧
          get_url_type hR u false ≠ "webpage") ∧
      ∀ (env : CrawlEnv) (u0 : String) (n : Nat),
        ∀ r ∈ (crawlRun env u0 n).batch,
          r.inferred_type ∈
              (["image", "document", "video", "audio", "unknown"] : List String) ∧
            r.inferred_type ≠ "webpage" := by
  have hmem : ∀ (hR : String → Option String) (u : String),
      get_url_type hR u false ∈
          (["image", "document", "video", "audio", "unknown"] : List String) ∧
        get_url_type hR u false ≠ "webpage" := by
    intro hR u
    rcases get_url_type_false_cases hR u with h | h | h | h | h <;>
      rw [h] <;> exact ⟨by decide, by decide⟩
  refine ⟨fun h1 h2 u => rfl, hmem, ?_⟩
  intro env u0 n r hr
  obtain ⟨u, rfl⟩ := crawlRun_batch_inferred env u0 n r hr
  exact hmem env.headResp u

/-- Witness for C9: concrete evaluations — the HEAD responder does not
change the no-fallback classification, a `.jpg` path classifies as
`image`, and the record persisted for the seed of a concrete 2-step run
has an admissible `inferred_type`. -/
theorem c9_inferred_type_extension_only_witness :
    get_url_type (fun _ => some "text/html") "https://example.com/a" false =
        get_url_type (fun _ => none) "https://example.com/a" false ∧
      (get_url_type (fun _ => none) "https://example.com/pic.jpg" false ∈
          (["image", "document", "video", "audio", "unknown"] : List String) ∧
        get_url_type (fun _ => none) "https://example.com/pic.jpg" false ≠ "webpage") ∧
      ({ url := "https://example.com"
         allowed := true
         type := "webpage"
         inferred_type := "unknown"
         main_endpoint := ""
         title := "t"
         description := "d"
         pageID := "p" } : LinkData).inferred_type ∈
          (["image", "document", "video", "audio", "unknown"] : List String) ∧
      ({ url := "https://example.com"
         allowed := true
         type := "webpage"
         inferred_type := "unknown"
         main_endpoint := ""
         title := "t"
         description := "d"
         pageID := "p" } : LinkData).inferred_type ≠ "webpage" := by
  refine ⟨c9_inferred_type_extension_only.1 (fun _ => some "text/html") (fun _ => none)
      "https://example.com/a",
    c9_inferred_type_extension_only.2.1 (fun _ => none) "https://example.com/pic.jpg",
    (c9_inferred_type_extension_only.2.2 envC1 "https://example.com" 2 _ ?_).1,
    (c9_inferred_type_extension_only.2.2 envC1 "https://example.com" 2 _ ?_).2⟩
  · decide
  · decide

/-- C10: the sampling theorem.  `sampler` is `random.sample` with its
documented contract (returns `k` elements chosen from the population)
as hypotheses.  For every group value, the returned list has exactly
`min sample_size (number of filtered records in that group)` elements,
and every returned record lies in that group and satisfies the
filters. -/
theorem c10_sample_records_by_group {R G : Type} [BEq G] [LawfulBEq G]
    (sampler : List R → Nat → List R) (records : List R) (group_attr : R → G)
    (sample_size : Nat) (filters : R → Bool)
    (hlen : ∀ (l : List R) (n : Nat), n ≤ l.length → (sampler l n).length = n)
    (hmem : ∀ (l : List R) (n : Nat), ∀ x ∈ sampler l n, x ∈ l)
    (g : G) :
    (sample_records_by_group sampler records group_attr sample_size filters g).length =
        min sample_size
          (((records.filter filters).filter (fun r => group_attr r == g)).length) ∧
      ∀ r ∈ sample_records_by_group sampler records group_attr sample_size filters g,
        group_attr r = g ∧ filters r = true := by
  constructor
  · exact hlen _ _ (Nat.min_le_right _ _)
  · intro r hr
    have hr2 := hmem _ _ r hr
    have hr3 := List.mem_filter.mp hr2
    have hr4 := List.mem_filter.mp hr3.1
    exact ⟨by simpa using hr3.2, hr4.2⟩

/-- Deterministic stand-in for `random.sample` used by the witness. -/
def takeSampler : List Nat → Nat → List Nat := fun l n => l.take n

/-- Witness for C10 on a concrete table: five numeric records grouped
by parity, sample size 2, filter `1 ≤ r`; the odd group's sample has
`min 2 3` elements, and the sampled record `1` is odd and passes the
filter. -/
theorem c10_sample_records_by_group_witness :
    (sample_records_by_group takeSampler [1, 2, 3, 4, 5] (fun r => r % 2) 2
          (fun r => decide (1 ≤ r)) 1).length =
        min 2
          (((([1, 2, 3, 4, 5] : List Nat).filter (fun r => decide (1 ≤ r))).filter
            (fun r => r % 2 == 1)).length) ∧
      ((1 : Nat) % 2 = 1 ∧ decide (1 ≤ (1 : Nat)) = true) := by
  have h := c10_sample_records_by_group takeSampler [1, 2, 3, 4, 5] (fun r => r % 2) 2
    (fun r => decide (1 ≤ r))
    (fun l n hn => by simp only [takeSampler, List.length_take]; omega)
    (fun l n x hx => List.take_subset n l hx) 1
  exact ⟨h.1, h.2 1 (by decide)⟩
